import Mathlib

/-!
# Ghost_Chat — verification of the ephemeral-room and message-encryption core

Shallow embedding of the Ghost_Chat repository's core logic:

* the client-side encryption layer (`src/lib/crypto.ts`): `getKey`,
  `encryptMessage`, `decryptMessage` built on the Web Crypto platform
  primitives (PBKDF2 key derivation, AES-GCM, `TextEncoder`/`TextDecoder`,
  `btoa`/`atob`);
* the `room-operations` Supabase edge function (create / join / get /
  getMessages actions and the invalid-action fallback);
* the database schema constraints and row-level-security policies from the
  SQL migrations (unique room codes, unique session tokens, the unique
  `(room_id, participant_number)` index, the final `messages` SELECT policy);
* an interleaving machine for two `join` calls racing on one waiting room.

Platform primitives (Web Crypto, `btoa`/`atob`, text codecs) are not
repository code; they are modelled executably and faithfully to their
documented contracts, with the model boundaries stated in each doc comment.
Everything else is translated directly from the repository sources.
-/

namespace GhostChat

/-! ## UTF-8 codec

Model of the `TextEncoder`/`TextDecoder` platform primitives used by
`src/lib/crypto.ts`.  `utf8Encode` is the real UTF-8 encoding of a string's
scalar values; `utf8Decode` is a strict UTF-8 parser implemented as a
byte-at-a-time automaton.  The browser's `TextDecoder` is total (it renders
replacement characters instead of failing); `utf8DecodeLossy` accounts for
that totality. -/

/-- UTF-8 encoding of one Unicode scalar value, as a list of byte values. -/
def utf8EncodeChar (c : Char) : List Nat :=
  if c.toNat < 128 then [c.toNat]
  else if c.toNat < 2048 then [192 + c.toNat / 64, 128 + c.toNat % 64]
  else if c.toNat < 65536 then
    [224 + c.toNat / 4096, 128 + c.toNat / 64 % 64, 128 + c.toNat % 64]
  else
    [240 + c.toNat / 262144, 128 + c.toNat / 4096 % 64, 128 + c.toNat / 64 % 64,
     128 + c.toNat % 64]

/-- UTF-8 encoding of a string (model of `TextEncoder.encode`). -/
def utf8Encode (s : String) : List Nat :=
  s.data.flatMap utf8EncodeChar

/-- State of the UTF-8 parsing automaton: between characters, in the middle
of a multi-byte character (decoded prefix, pending value, continuation bytes
still needed, minimum admissible value for the overlong check), or failed. -/
inductive Utf8S where
  | ok (cs : List Char)
  | mid (cs : List Char) (pend need mn : Nat)
  | bad
deriving DecidableEq

/-- One byte of strict UTF-8 parsing. -/
def utf8Step (st : Utf8S) (b : Nat) : Utf8S :=
  match st with
  | .bad => .bad
  | .ok cs =>
    if b < 128 then .ok (cs ++ [Char.ofNat b])
    else if b < 192 then .bad
    else if b < 224 then .mid cs (b - 192) 1 128
    else if b < 240 then .mid cs (b - 224) 2 2048
    else if b < 248 then .mid cs (b - 240) 3 65536
    else .bad
  | .mid cs pend need mn =>
    if 128 ≤ b ∧ b < 192 then
      if need = 1 then
        if mn ≤ pend * 64 + (b - 128) ∧ pend * 64 + (b - 128) < 1114112 then
          .ok (cs ++ [Char.ofNat (pend * 64 + (b - 128))])
        else .bad
      else .mid cs (pend * 64 + (b - 128)) (need - 1) mn
    else .bad

/-- Strict UTF-8 decoding of a byte list into a string. -/
def utf8Decode (l : List Nat) : Option String :=
  match l.foldl utf8Step (.ok []) with
  | .ok cs => some (String.mk cs)
  | _ => none

/-- Total UTF-8 decoding (model of `TextDecoder.decode`, which never throws:
invalid input is rendered with replacement characters; the model collapses
any invalid input to a single U+FFFD). -/
def utf8DecodeLossy (l : List Nat) : String :=
  match utf8Decode l with
  | some s => s
  | none => "�"

theorem char_toNat_lt (c : Char) : c.toNat < 1114112 := by
  have h := c.valid
  unfold UInt32.isValidChar Nat.isValidChar at h
  have he : c.toNat = c.val.toNat := rfl
  rcases h with h | h
  · omega
  · omega

theorem utf8Step_encodeChar (cs : List Char) (c : Char) :
    List.foldl utf8Step (.ok cs) (utf8EncodeChar c) = .ok (cs ++ [c]) := by
  have hv := char_toNat_lt c
  by_cases h1 : c.toNat < 128
  · rw [show utf8EncodeChar c = [c.toNat] by simp [utf8EncodeChar, h1]]
    simp only [List.foldl_cons, List.foldl_nil, utf8Step]
    rw [if_pos h1, Char.ofNat_toNat]
  · by_cases h2 : c.toNat < 2048
    · rw [show utf8EncodeChar c = [192 + c.toNat / 64, 128 + c.toNat % 64] by
        simp [utf8EncodeChar, h1, h2]]
      simp only [List.foldl_cons, List.foldl_nil, utf8Step]
      rw [if_neg (by omega), if_neg (by omega), if_pos (by omega)]
      simp only [utf8Step]
      rw [if_pos (by omega), if_pos trivial, if_pos (by constructor <;> omega)]
      rw [show (192 + c.toNat / 64 - 192) * 64 + (128 + c.toNat % 64 - 128) = c.toNat by
        omega, Char.ofNat_toNat]
    · by_cases h3 : c.toNat < 65536
      · rw [show utf8EncodeChar c =
            [224 + c.toNat / 4096, 128 + c.toNat / 64 % 64, 128 + c.toNat % 64] by
          simp [utf8EncodeChar, h1, h2, h3]]
        simp only [List.foldl_cons, List.foldl_nil, utf8Step]
        rw [if_neg (by omega), if_neg (by omega), if_neg (by omega), if_pos (by omega)]
        simp only [utf8Step]
        rw [if_pos (by omega), if_neg (by omega)]
        simp only [utf8Step]
        rw [if_pos (by omega), if_pos trivial, if_pos (by constructor <;> omega)]
        rw [show ((224 + c.toNat / 4096 - 224) * 64 + (128 + c.toNat / 64 % 64 - 128)) * 64
            + (128 + c.toNat % 64 - 128) = c.toNat by omega, Char.ofNat_toNat]
      · rw [show utf8EncodeChar c =
            [240 + c.toNat / 262144, 128 + c.toNat / 4096 % 64, 128 + c.toNat / 64 % 64,
             128 + c.toNat % 64] by simp [utf8EncodeChar, h1, h2, h3]]
        simp only [List.foldl_cons, List.foldl_nil, utf8Step]
        rw [if_neg (by omega), if_neg (by omega), if_neg (by omega), if_neg (by omega),
          if_pos (by omega)]
        simp only [utf8Step]
        rw [if_pos (by omega), if_neg (by omega)]
        simp only [utf8Step]
        rw [if_pos (by omega), if_neg (by omega)]
        simp only [utf8Step]
        rw [if_pos (by omega), if_pos trivial, if_pos (by constructor <;> omega)]
        rw [show (((240 + c.toNat / 262144 - 240) * 64 + (128 + c.toNat / 4096 % 64 - 128))
            * 64 + (128 + c.toNat / 64 % 64 - 128)) * 64 + (128 + c.toNat % 64 - 128)
            = c.toNat by omega, Char.ofNat_toNat]

/-- Decoding inverts encoding: the codec round-trips on every string. -/
theorem utf8Decode_utf8Encode (s : String) : utf8Decode (utf8Encode s) = some s := by
  suffices h : ∀ (cs acc : List Char),
      List.foldl utf8Step (.ok acc) (cs.flatMap utf8EncodeChar) = .ok (acc ++ cs) by
    rw [utf8Decode, utf8Encode, h s.data []]
    cases s
    simp [String.mk]
  intro cs
  induction cs with
  | nil => intro acc; simp
  | cons c rest ih =>
    intro acc
    rw [List.flatMap_cons, List.foldl_append, utf8Step_encodeChar, ih]
    simp

theorem utf8DecodeLossy_utf8Encode (s : String) : utf8DecodeLossy (utf8Encode s) = s := by
  rw [utf8DecodeLossy, utf8Decode_utf8Encode]

theorem utf8Encode_injective : Function.Injective utf8Encode := by
  intro a b h
  have ha := utf8Decode_utf8Encode a
  have hb := utf8Decode_utf8Encode b
  rw [h, hb] at ha
  exact (Option.some_injective _ ha).symm

theorem utf8EncodeChar_lt_256 (c : Char) : ∀ b ∈ utf8EncodeChar c, b < 256 := by
  intro b hb
  have hv := char_toNat_lt c
  unfold utf8EncodeChar at hb
  split at hb
  · simp only [List.mem_singleton] at hb; omega
  · split at hb
    · simp only [List.mem_cons, List.mem_singleton, List.not_mem_nil, or_false] at hb
      rcases hb with h | h <;> omega
    · split at hb
      · simp only [List.mem_cons, List.mem_singleton, List.not_mem_nil, or_false] at hb
        rcases hb with h | h | h <;> omega
      · simp only [List.mem_cons, List.mem_singleton, List.not_mem_nil, or_false] at hb
        rcases hb with h | h | h | h <;> omega

theorem utf8Encode_lt_256 (s : String) : ∀ b ∈ utf8Encode s, b < 256 := by
  intro b hb
  rw [utf8Encode, List.mem_flatMap] at hb
  obtain ⟨c, _, hc⟩ := hb
  exact utf8EncodeChar_lt_256 c b hc

/-! ## Base64 codec

Model of the `btoa`/`atob` platform primitives.  `encryptMessage` produces
its output with `btoa(String.fromCharCode(...combined))` and `decryptMessage`
recovers the bytes with `atob(...).split("").map(c => c.charCodeAt(0))`; the
two composites are modelled as `base64Encode`/`base64Decode` over byte lists.
The decoder is strict (any non-alphabet character, bad padding or bad length
fails), matching `atob`'s `InvalidCharacterError` behaviour. -/

/-- The base64 alphabet. -/
def b64Alphabet : List Char :=
  "ABCDEFGHIJKLMNOPQRSTUVWXYZabcdefghijklmnopqrstuvwxyz0123456789+/".data

/-- Character for a sextet value. -/
def b64Char (i : Nat) : Char := b64Alphabet.getD i '?'

/-- Sextet value of a character, `none` for non-alphabet characters
(including the padding character). -/
def b64Index (c : Char) : Option Nat := b64Alphabet.findIdx? (· == c)

theorem b64Index_b64Char : ∀ i : Fin 64, b64Index (b64Char i.val) = some i.val := by
  decide

theorem b64Char_ne_pad : ∀ i : Fin 64, b64Char i.val ≠ '=' := by
  decide

/-- Base64 encoding of a byte list, with padding. -/
def b64EncodeBytes : List Nat → List Char
  | [] => []
  | [a] => [b64Char (a / 4), b64Char (a % 4 * 16), '=', '=']
  | [a, b] => [b64Char (a / 4), b64Char (a % 4 * 16 + b / 16), b64Char (b % 16 * 4), '=']
  | a :: b :: c :: rest =>
    b64Char (a / 4) :: b64Char (a % 4 * 16 + b / 16) :: b64Char (b % 16 * 4 + c / 64) ::
      b64Char (c % 64) :: b64EncodeBytes rest

/-- Strict base64 decoding of a character list. -/
def b64DecodeChars : List Char → Option (List Nat)
  | [] => some []
  | c1 :: c2 :: c3 :: c4 :: rest =>
    (b64Index c1).bind fun i1 =>
    (b64Index c2).bind fun i2 =>
    if c3 = '=' then
      if c4 = '=' ∧ rest = [] then some [i1 * 4 + i2 / 16] else none
    else
      (b64Index c3).bind fun i3 =>
      if c4 = '=' then
        if rest = [] then some [i1 * 4 + i2 / 16, i2 % 16 * 16 + i3 / 4] else none
      else
        (b64Index c4).bind fun i4 =>
        (b64DecodeChars rest).map
          (fun bs => (i1 * 4 + i2 / 16) :: (i2 % 16 * 16 + i3 / 4) ::
            (i3 % 4 * 64 + i4) :: bs)
  | _ => none

/-- Model of `btoa(String.fromCharCode(...bytes))`. -/
def base64Encode (bs : List Nat) : String := String.mk (b64EncodeBytes bs)

/-- Model of `atob(s).split("").map(c => c.charCodeAt(0))`; `none` models the
thrown `InvalidCharacterError`. -/
def base64Decode (s : String) : Option (List Nat) := b64DecodeChars s.data

theorem b64Index_b64Char_of_lt {i : Nat} (h : i < 64) : b64Index (b64Char i) = some i :=
  b64Index_b64Char ⟨i, h⟩

theorem b64Char_ne_pad_of_lt {i : Nat} (h : i < 64) : b64Char i ≠ '=' :=
  b64Char_ne_pad ⟨i, h⟩

theorem b64DecodeChars_b64EncodeBytes (bs : List Nat) (hb : ∀ b ∈ bs, b < 256) :
    b64DecodeChars (b64EncodeBytes bs) = some bs := by
  induction bs using b64EncodeBytes.induct with
  | case1 => rfl
  | case2 a =>
    have ha : a < 256 := hb a (by simp)
    rw [b64EncodeBytes, b64DecodeChars,
      b64Index_b64Char_of_lt (by omega : a / 4 < 64),
      b64Index_b64Char_of_lt (by omega : a % 4 * 16 < 64)]
    simp only [Option.some_bind, if_pos rfl, and_self, if_pos trivial]
    have : a / 4 * 4 + a % 4 * 16 / 16 = a := by omega
    rw [this]
  | case3 a b =>
    have ha : a < 256 := hb a (by simp)
    have hbb : b < 256 := hb b (by simp)
    rw [b64EncodeBytes, b64DecodeChars,
      b64Index_b64Char_of_lt (by omega : a / 4 < 64),
      b64Index_b64Char_of_lt (by omega : a % 4 * 16 + b / 16 < 64)]
    simp only [Option.some_bind]
    rw [if_neg (b64Char_ne_pad_of_lt (by omega : b % 16 * 4 < 64)),
      b64Index_b64Char_of_lt (by omega : b % 16 * 4 < 64)]
    simp only [Option.some_bind, if_pos rfl, if_pos trivial]
    have h1 : a / 4 * 4 + (a % 4 * 16 + b / 16) / 16 = a := by omega
    have h2 : (a % 4 * 16 + b / 16) % 16 * 16 + b % 16 * 4 / 4 = b := by omega
    rw [h1, h2]
  | case4 a b c rest ih =>
    have ha : a < 256 := hb a (by simp)
    have hbb : b < 256 := hb b (by simp)
    have hc : c < 256 := hb c (by simp)
    have hrest : ∀ x ∈ rest, x < 256 := fun x hx => hb x (by simp [hx])
    rw [b64EncodeBytes, b64DecodeChars,
      b64Index_b64Char_of_lt (by omega : a / 4 < 64),
      b64Index_b64Char_of_lt (by omega : a % 4 * 16 + b / 16 < 64)]
    simp only [Option.some_bind]
    rw [if_neg (b64Char_ne_pad_of_lt (by omega : b % 16 * 4 + c / 64 < 64)),
      b64Index_b64Char_of_lt (by omega : b % 16 * 4 + c / 64 < 64)]
    simp only [Option.some_bind]
    rw [if_neg (b64Char_ne_pad_of_lt (by omega : c % 64 < 64)),
      b64Index_b64Char_of_lt (by omega : c % 64 < 64)]
    simp only [Option.some_bind]
    rw [ih hrest]
    simp only [Option.map_some']
    have h1 : a / 4 * 4 + (a % 4 * 16 + b / 16) / 16 = a := by omega
    have h2 : (a % 4 * 16 + b / 16) % 16 * 16 + (b % 16 * 4 + c / 64) / 4 = b := by omega
    have h3 : (b % 16 * 4 + c / 64) % 4 * 64 + c % 64 = c := by omega
    rw [h1, h2, h3]

/-- The base64 codec round-trips on every byte list. -/
theorem base64Decode_base64Encode (bs : List Nat) (hb : ∀ b ∈ bs, b < 256) :
    base64Decode (base64Encode bs) = some bs := by
  rw [base64Decode, base64Encode]
  exact b64DecodeChars_b64EncodeBytes bs hb

/-! ## Idealised AEAD and key derivation

Model of the Web Crypto primitives used by `src/lib/crypto.ts` (`getKey`,
`crypto.subtle.encrypt`/`decrypt` with AES-GCM).  These are platform
primitives, not repository code, so they are modelled by their contract:

* `getKey` models the PBKDF2 derivation (fixed salt `ghost-chat-salt-v1`,
  100000 iterations, SHA-256, 256-bit AES-GCM key): a deterministic function
  of the room code, injective on distinct codes (the cryptographic
  idealisation of a collision-resistant KDF).  It is modelled as the UTF-8
  bytes of the code.
* `aesGcmEncrypt`/`aesGcmDecrypt` model AES-GCM as an ideal authenticated
  cipher: decryption succeeds exactly on a ciphertext produced with the same
  key and IV, in full (tag-authenticated, so truncation or extension fails),
  and returns exactly the original plaintext.  (The model does not hide the
  plaintext bytes — confidentiality is not a functional property — and it
  does not detect same-length bit flips inside the payload section, which no
  claim exercises.) -/

/-- Self-delimiting length field used by the ideal cipher's framing:
a run of 255s followed by the remainder. -/
def lenCode (n : Nat) : List Nat :=
  List.replicate (n / 255) 255 ++ [n % 255]

/-- Parse a `lenCode` length field. -/
def parseLen : List Nat → Option (Nat × List Nat)
  | [] => none
  | b :: t => if b < 255 then some (b, t) else (parseLen t).map (fun p => (p.1 + 255, p.2))

/-- Split off exactly `n` leading bytes, failing if fewer are available. -/
def takeExact (n : Nat) (l : List Nat) : Option (List Nat × List Nat) :=
  if n ≤ l.length then some (l.take n, l.drop n) else none

/-- Model of the Web Crypto PBKDF2 key derivation in `getKey`
(`src/lib/crypto.ts`): deterministic in the room code and injective across
codes. -/
def getKey (roomCode : String) : List Nat := utf8Encode roomCode

/-- Ideal AES-GCM encryption: the ciphertext determines key identity, IV and
plaintext through an unambiguous framing. -/
def aesGcmEncrypt (key iv pt : List Nat) : List Nat :=
  lenCode key.length ++ key ++ lenCode iv.length ++ iv ++ lenCode pt.length ++ pt

/-- Ideal AES-GCM decryption: succeeds exactly on an untruncated, unextended
ciphertext produced under the same key and IV. -/
def aesGcmDecrypt (key iv ct : List Nat) : Option (List Nat) :=
  (parseLen ct).bind fun p1 =>
  (takeExact p1.1 p1.2).bind fun q1 =>
  (parseLen q1.2).bind fun p2 =>
  (takeExact p2.1 p2.2).bind fun q2 =>
  (parseLen q2.2).bind fun p3 =>
  (takeExact p3.1 p3.2).bind fun q3 =>
  if q1.1 = key ∧ q2.1 = iv ∧ q3.2 = [] then some q3.1 else none

theorem parseLen_replicate (k m : Nat) (hm : m < 255) (rest : List Nat) :
    parseLen (List.replicate k 255 ++ ([m] ++ rest)) = some (k * 255 + m, rest) := by
  induction k with
  | zero =>
    simp [List.replicate, parseLen, if_pos hm]
  | succ k ih =>
    rw [List.replicate_succ, List.cons_append, parseLen,
      if_neg (by omega : ¬(255:Nat) < 255), ih]
    simp only [Option.map_some']
    have he : k * 255 + m + 255 = (k + 1) * 255 + m := by ring
    rw [he]

theorem parseLen_lenCode (n : Nat) (rest : List Nat) :
    parseLen (lenCode n ++ rest) = some (n, rest) := by
  rw [lenCode, List.append_assoc,
    parseLen_replicate (n / 255) (n % 255) (Nat.mod_lt _ (by norm_num)) rest]
  have he : n / 255 * 255 + n % 255 = n := by omega
  rw [he]

theorem takeExact_append (l rest : List Nat) :
    takeExact l.length (l ++ rest) = some (l, rest) := by
  rw [takeExact, if_pos (by simp)]
  rw [List.take_left, List.drop_left]

theorem lenCode_lt_256 (n : Nat) : ∀ b ∈ lenCode n, b < 256 := by
  intro b hb
  rw [lenCode] at hb
  simp only [List.mem_append, List.mem_replicate, List.mem_singleton] at hb
  rcases hb with ⟨_, h⟩ | h
  · omega
  · have : n % 255 < 255 := Nat.mod_lt _ (by norm_num)
    omega

/-- The framing parses back to its three components. -/
theorem aesGcmDecrypt_parse (key iv pt : List Nat) (key2 iv2 : List Nat) :
    aesGcmDecrypt key2 iv2 (aesGcmEncrypt key iv pt) =
      if key = key2 ∧ iv = iv2 then some pt else none := by
  rw [aesGcmEncrypt, aesGcmDecrypt]
  have hassoc : lenCode key.length ++ key ++ lenCode iv.length ++ iv ++
      lenCode pt.length ++ pt =
      lenCode key.length ++ (key ++ (lenCode iv.length ++ (iv ++
        (lenCode pt.length ++ (pt ++ []))))) := by
    simp [List.append_assoc]
  rw [hassoc, parseLen_lenCode]
  simp only [Option.some_bind]
  rw [takeExact_append key (lenCode iv.length ++ (iv ++ (lenCode pt.length ++ (pt ++ []))))]
  simp only [Option.some_bind]
  rw [parseLen_lenCode]
  simp only [Option.some_bind]
  rw [takeExact_append iv (lenCode pt.length ++ (pt ++ []))]
  simp only [Option.some_bind]
  rw [parseLen_lenCode]
  simp only [Option.some_bind]
  rw [takeExact_append pt []]
  simp only [Option.some_bind]
  by_cases hk : key = key2
  · by_cases hiv : iv = iv2
    · simp [hk, hiv]
    · rw [if_neg (by tauto), if_neg (by tauto)]
  · rw [if_neg (by tauto), if_neg (by tauto)]

/-- Round trip of the ideal cipher. -/
theorem aesGcmDecrypt_aesGcmEncrypt (key iv pt : List Nat) :
    aesGcmDecrypt key iv (aesGcmEncrypt key iv pt) = some pt := by
  rw [aesGcmDecrypt_parse, if_pos ⟨rfl, rfl⟩]

/-- Wrong key: the ideal cipher rejects. -/
theorem aesGcmDecrypt_wrong_key (key key2 iv pt : List Nat) (h : key ≠ key2) :
    aesGcmDecrypt key2 iv (aesGcmEncrypt key iv pt) = none := by
  rw [aesGcmDecrypt_parse, if_neg (by tauto)]

theorem aesGcmEncrypt_lt_256 (key iv pt : List Nat) (hk : ∀ b ∈ key, b < 256)
    (hiv : ∀ b ∈ iv, b < 256) (hpt : ∀ b ∈ pt, b < 256) :
    ∀ b ∈ aesGcmEncrypt key iv pt, b < 256 := by
  intro b hb
  rw [aesGcmEncrypt] at hb
  simp only [List.mem_append] at hb
  rcases hb with ((((h | h) | h) | h) | h) | h
  · exact lenCode_lt_256 key.length b h
  · exact hk b h
  · exact lenCode_lt_256 iv.length b h
  · exact hiv b h
  · exact lenCode_lt_256 pt.length b h
  · exact hpt b h

/-! ## The encryption layer (`src/lib/crypto.ts`)

`encryptMessage` and `decryptMessage` translated line by line; the fresh
random IV drawn by `crypto.getRandomValues(new Uint8Array(12))` is passed as
an explicit parameter. -/

/-- The in-band sentinel returned by `decryptMessage` on any failure. -/
def decryptionSentinel : String := "[Message could not be decrypted]"

/-- `encryptMessage(text, roomCode)` from `src/lib/crypto.ts`: derive the
key from the room code, encrypt the UTF-8 bytes of `text` under the random
12-byte IV, prepend the IV, and base64-encode the combined bytes. -/
def encryptMessage (text roomCode : String) (iv : List Nat) : String :=
  let key := getKey roomCode
  let encoded := utf8Encode text
  let ciphertext := aesGcmEncrypt key iv encoded
  let combined := iv ++ ciphertext
  base64Encode combined

/-- `decryptMessage(encryptedBase64, roomCode)` from `src/lib/crypto.ts`:
base64-decode, split off the first 12 bytes as the IV, decrypt the rest,
decode the plaintext bytes; any failure is caught and rendered as the
sentinel string. -/
def decryptMessage (encryptedBase64 roomCode : String) : String :=
  match base64Decode encryptedBase64 with
  | none => decryptionSentinel
  | some combined =>
    let iv := combined.take 12
    let ciphertext := combined.drop 12
    match aesGcmDecrypt (getKey roomCode) iv ciphertext with
    | none => decryptionSentinel
    | some decrypted => utf8DecodeLossy decrypted

/-- A fixed 12-byte IV used for concrete instances (the source draws the IV
from `crypto.getRandomValues(new Uint8Array(12))`). -/
def ivZero : List Nat := List.replicate 12 0

theorem decryptMessage_encryptMessage (P C1 C2 : String) (iv : List Nat)
    (hlen : iv.length = 12) (hiv : ∀ b ∈ iv, b < 256) :
    decryptMessage (encryptMessage P C1 iv) C2 =
      if getKey C1 = getKey C2 then P else decryptionSentinel := by
  have hbytes : ∀ b ∈ iv ++ aesGcmEncrypt (getKey C1) iv (utf8Encode P), b < 256 := by
    intro b hb
    rcases List.mem_append.mp hb with h | h
    · exact hiv b h
    · exact aesGcmEncrypt_lt_256 _ _ _ (utf8Encode_lt_256 C1) hiv
        (utf8Encode_lt_256 P) b h
  simp only [encryptMessage, decryptMessage]
  rw [base64Decode_base64Encode _ hbytes]
  simp only []
  rw [← hlen, List.take_left, List.drop_left, aesGcmDecrypt_parse]
  by_cases hk : getKey C1 = getKey C2
  · rw [if_pos ⟨hk, rfl⟩, if_pos hk]
    exact utf8DecodeLossy_utf8Encode P
  · rw [if_neg (by tauto), if_neg hk]

theorem decryptMessage_of_base64_none (enc C : String)
    (h : base64Decode enc = none) : decryptMessage enc C = decryptionSentinel := by
  simp only [decryptMessage, h]

theorem decryptMessage_of_aesGcm_none (enc C : String) (combined : List Nat)
    (h1 : base64Decode enc = some combined)
    (h2 : aesGcmDecrypt (getKey C) (combined.take 12) (combined.drop 12) = none) :
    decryptMessage enc C = decryptionSentinel := by
  simp only [decryptMessage, h1, h2]

/-! ## Claims C3, C4, C10 — the encryption layer -/

/-- C3: for every plaintext string `P` and every room code `C`, decrypting
the result of encrypting `P` under the key derived from `C`, using the key
derived from the same `C`, returns exactly `P` (for every well-formed random
12-byte IV drawn by `encryptMessage`). -/
theorem claim_c3_roundtrip (P C : String) (iv : List Nat)
    (hlen : iv.length = 12) (hiv : ∀ b ∈ iv, b < 256) :
    decryptMessage (encryptMessage P C iv) C = P := by
  rw [decryptMessage_encryptMessage P C C iv hlen hiv, if_pos rfl]

/-- Witness for C3 at a concrete plaintext, code and IV. -/
theorem claim_c3_roundtrip_witness :
    ivZero.length = 12 ∧ (∀ b ∈ ivZero, b < 256) ∧
      decryptMessage (encryptMessage "hi" "ABC234" ivZero) "ABC234" = "hi" :=
  ⟨by decide, by decide, claim_c3_roundtrip "hi" "ABC234" ivZero (by decide) (by decide)⟩

/-- C4 counterexample: the claim says decrypting with a wrong key never
yields the plaintext `P`; but the failure result is the in-band sentinel
string, so for `P` equal to the sentinel the returned value is exactly `P`
even though the codes (hence keys) differ. -/
theorem claim_c4_counterexample :
    ("ABC234" : String) ≠ "DEF567" ∧
      decryptMessage (encryptMessage decryptionSentinel "ABC234" ivZero) "DEF567" =
        decryptionSentinel := by
  constructor
  · decide
  · decide

/-- C4 (amended): decrypting under the key of a different room code yields
the sentinel `[Message could not be decrypted]` (which coincides with the
plaintext only when the plaintext is itself the sentinel), and never a
thrown exception; the same fails-closed behaviour holds for malformed
base64 input and for truncated ciphertext. -/
theorem claim_c4_amended_wrong_key_fails_closed :
    (∀ (P C1 C2 : String) (iv : List Nat), C1 ≠ C2 → iv.length = 12 →
      (∀ b ∈ iv, b < 256) →
      decryptMessage (encryptMessage P C1 iv) C2 = decryptionSentinel) ∧
    (∀ enc C, base64Decode enc = none → decryptMessage enc C = decryptionSentinel) ∧
    decryptMessage (base64Encode ((ivZero ++
      aesGcmEncrypt (getKey "ABC234") ivZero (utf8Encode "hi")).dropLast)) "ABC234" =
      decryptionSentinel := by
  refine ⟨?_, decryptMessage_of_base64_none, by decide⟩
  intro P C1 C2 iv hne hlen hiv
  have hk : getKey C1 ≠ getKey C2 := fun h => hne (utf8Encode_injective h)
  rw [decryptMessage_encryptMessage P C1 C2 iv hlen hiv, if_neg hk]

/-- Witness for the amended C4 at concrete codes, plaintext and IV. -/
theorem claim_c4_amended_witness :
    ("ABC234" : String) ≠ "DEF567" ∧
      decryptMessage (encryptMessage "hi" "ABC234" ivZero) "DEF567" =
        decryptionSentinel :=
  ⟨by decide, claim_c4_amended_wrong_key_fails_closed.1 "hi" "ABC234" "DEF567" ivZero
    (by decide) (by decide) (by decide)⟩

/-- C10: `decryptMessage` is total and collapses every failure (malformed
base64, failed authenticated decryption) to the exact in-band sentinel
`[Message could not be decrypted]`; since the sentinel is itself a possible
plaintext, a successful decryption of the sentinel plaintext is
indistinguishable from a failed decryption. -/
theorem claim_c10_sentinel_total :
    (∀ enc C, (base64Decode enc = none ∨
        ∃ combined, base64Decode enc = some combined ∧
          aesGcmDecrypt (getKey C) (combined.take 12) (combined.drop 12) = none) →
      decryptMessage enc C = decryptionSentinel) ∧
    decryptMessage (encryptMessage decryptionSentinel "ABC234" ivZero) "ABC234" =
      decryptMessage "%%%" "ABC234" := by
  constructor
  · intro enc C h
    rcases h with h | ⟨combined, h1, h2⟩
    · exact decryptMessage_of_base64_none enc C h
    · exact decryptMessage_of_aesGcm_none enc C combined h1 h2
  · rw [decryptMessage_encryptMessage decryptionSentinel "ABC234" "ABC234" ivZero
      (by decide) (by decide), if_pos rfl]
    decide

/-- Witness for C10's failure clause at a concrete malformed input. -/
theorem claim_c10_sentinel_total_witness :
    base64Decode "%%%" = none ∧
      decryptMessage "%%%" "ABC234" = decryptionSentinel :=
  ⟨by decide, claim_c10_sentinel_total.1 "%%%" "ABC234" (Or.inl (by decide))⟩

/-! ## Data model and store

Rows of the `rooms`, `room_participants` and `messages` tables as created by
the SQL migrations.  The uniqueness constraints enforced by the schema —
`rooms.code UNIQUE`, `room_participants.session_token UNIQUE`, and the
unique index `idx_room_participant_number` on
`(room_id, participant_number)` — are modelled as the failure conditions of
the insert operations below. -/

/-- `rooms.status`: `CHECK (status IN ('waiting', 'active', 'expired'))`. -/
inductive RoomStatus where
  | waiting
  | active
  | expired
deriving DecidableEq

/-- A `rooms` row.  Timestamps are integer epoch milliseconds. -/
structure Room where
  id : Nat
  code : String
  durationMinutes : Int
  createdAt : Int
  expiresAt : Int
  status : RoomStatus
  participantCount : Int
deriving DecidableEq

/-- A `room_participants` row. -/
structure Participant where
  roomId : Nat
  sessionToken : String
  participantNumber : Nat
deriving DecidableEq

/-- A `messages` row. -/
structure Message where
  roomId : Nat
  senderId : String
  content : Option String
  imageUrl : Option String
  messageType : String
deriving DecidableEq

/-- The database state: the three tables, rows in insertion order. -/
structure Store where
  rooms : List Room
  participants : List Participant
  messages : List Message
deriving DecidableEq

/-- Response of the `room-operations` edge function: a success payload or an
error with its HTTP status and message string, exactly as in the source. -/
inductive Response where
  | okJoin (room : Room) (sessionToken : String) (participantNumber : Nat)
  | okRoom (room : Room) (participantNumber : Nat)
  | okMessages (msgs : List Message)
  | error (status : Nat) (msg : String)
deriving DecidableEq

/-- Model of JavaScript's `String.prototype.toUpperCase()` (used by the
`join` and `get` handlers as `code.toUpperCase()`): character-wise
upper-casing. -/
def strToUpper (s : String) : String := String.mk (s.data.map Char.toUpper)

/-- `rooms.code UNIQUE`: does a row with this code exist? -/
def codeExists (s : Store) (code : String) : Bool :=
  s.rooms.any (fun r => r.code == code)

/-- `room_participants.session_token UNIQUE`: does this token exist? -/
def tokenExists (s : Store) (tok : String) : Bool :=
  s.participants.any (fun p => p.sessionToken == tok)

/-- `idx_room_participant_number`: is `(room_id, participant_number)`
already bound? -/
def slotTaken (s : Store) (roomId slot : Nat) : Bool :=
  s.participants.any (fun p => p.roomId == roomId && p.participantNumber == slot)

/-- `.from('rooms').select('*').eq('code', code).maybeSingle()` (the code
column is unique, so the first match is the row). -/
def findRoomByCode (s : Store) (code : String) : Option Room :=
  s.rooms.find? (fun r => r.code == code)

/-- Lookup of a `room_participants` row by `(room_id, session_token)`. -/
def findParticipant (s : Store) (roomId : Nat) (tok : String) : Option Participant :=
  s.participants.find? (fun p => p.roomId == roomId && p.sessionToken == tok)

/-! ## The `room-operations` edge function

Translated from the edge-function source bundled with migration
`20260210200247_…`.  The edge function runs with the service role, which
bypasses row-level security, so only the schema constraints act on its
writes.  Server-side non-determinism is passed as parameters: the generated
room code and session token (`generateRoomCode`/`generateSessionToken`), the
fresh row id, the edge runtime's clock reading `tEdge` (`Date.now()`) and
the database clock reading `tDb` (`created_at DEFAULT now()`). -/

/-- The `create` action handler. -/
def createRoom (d : Int) (code tok : String) (newId : Nat) (tEdge tDb : Int)
    (s : Store) : Response × Store :=
  if d < 1 ∨ 120 < d then
    (.error 400 "Invalid duration. Must be between 1 and 120 minutes.", s)
  else
    let expiresAt := tEdge + d * 60 * 1000
    if codeExists s code then
      (.error 500 "Failed to create room", s)
    else
      let room : Room :=
        { id := newId, code := code, durationMinutes := d, createdAt := tDb,
          expiresAt := expiresAt, status := .waiting, participantCount := 1 }
      let s1 : Store := { s with rooms := s.rooms ++ [room] }
      if tokenExists s1 tok ∨ slotTaken s1 room.id 1 then
        (.error 500 "Failed to register as participant",
         { s1 with rooms := s1.rooms.filter (fun r => r.id ≠ room.id) })
      else
        (.okJoin room tok 1,
         { s1 with participants := s1.participants ++ [⟨room.id, tok, 1⟩] })

/-- The pre-checks of the `join` action handler (everything before the
participant insert), returning the found room or the error response. -/
def joinPrecheck (code : String) (now : Int) (s : Store) : Except Response Room :=
  if code.length ≠ 6 then .error (.error 400 "Invalid room code")
  else
    match findRoomByCode s (strToUpper code) with
    | none => .error (.error 404 "Room not found")
    | some room =>
      if room.expiresAt < now then .error (.error 400 "This room has expired")
      else if room.status = .expired then
        .error (.error 400 "This room is no longer available")
      else if room.status = .active ∧ 2 ≤ room.participantCount then
        .error (.error 400 "This room is already full")
      else .ok room

/-- The slot-2 participant insert of the `join` handler: fails exactly when
a schema constraint rejects the row (duplicate token, or the unique
`(room_id, participant_number)` index). -/
def joinInsertP2 (roomId : Nat) (tok : String) (s : Store) : Option Store :=
  if tokenExists s tok ∨ slotTaken s roomId 2 then none
  else some { s with participants := s.participants ++ [⟨roomId, tok, 2⟩] }

/-- The room update of the `join` handler:
`update({status:'active', participant_count:2}).eq('id', room.id)` — an
unconditional update of the row with the given id, not a compare-and-swap. -/
def joinActivate (roomId : Nat) (s : Store) : Store :=
  { s with rooms := s.rooms.map (fun r =>
      if r.id = roomId then { r with status := .active, participantCount := 2 } else r) }

/-- The `join` action handler (pre-checks, participant insert, room update). -/
def joinRoom (code tok : String) (now : Int) (s : Store) : Response × Store :=
  match joinPrecheck code now s with
  | .error resp => (resp, s)
  | .ok room =>
    match joinInsertP2 room.id tok s with
    | none => (.error 400 "Failed to join room. It may be full.", s)
    | some s1 =>
      (.okJoin { room with status := .active, participantCount := 2 } tok 2,
       joinActivate room.id s1)

/-- The `get` action handler. -/
def getRoomAction (code sessionToken : String) (s : Store) : Response × Store :=
  if code = "" ∨ sessionToken = "" then
    (.error 400 "Missing code or session token", s)
  else
    match findRoomByCode s (strToUpper code) with
    | none => (.error 404 "Room not found", s)
    | some room =>
      match findParticipant s room.id sessionToken with
      | none => (.error 403 "Not authorized to access this room", s)
      | some p => (.okRoom room p.participantNumber, s)

/-- The `getMessages` action handler. -/
def getMessagesAction (roomId : Nat) (sessionToken : String) (s : Store) :
    Response × Store :=
  if sessionToken = "" then
    (.error 400 "Missing roomId or session token", s)
  else
    match findParticipant s roomId sessionToken with
    | none => (.error 403 "Not authorized to access this room", s)
    | some _ =>
      (.okMessages (s.messages.filter (fun m => m.roomId == roomId)), s)

/-- A request body as the edge function sees it: an action string plus the
fields the handlers read.  The TypeScript `RoomRequest` union is dispatched
purely on `body.action`. -/
structure RawRequest where
  action : String
  durationMinutes : Int
  code : String
  sessionToken : String
  roomId : Nat
deriving DecidableEq

/-- The edge function's dispatcher: the four `if (body.action === …)`
branches and the final `Invalid action` fallback.  There is no
`sendMessage` branch. -/
def roomOperations (req : RawRequest) (genCode genTok : String) (newId : Nat)
    (tEdge tDb now : Int) (s : Store) : Response × Store :=
  if req.action = "create" then
    createRoom req.durationMinutes genCode genTok newId tEdge tDb s
  else if req.action = "join" then
    joinRoom req.code genTok now s
  else if req.action = "get" then
    getRoomAction req.code req.sessionToken s
  else if req.action = "getMessages" then
    getMessagesAction req.roomId req.sessionToken s
  else
    (.error 400 "Invalid action", s)

/-! ## Row-level-security policies (final migration state)

Applying the migrations in timestamp order, the final policies on
`public.messages` are:

* SELECT: `"Messages are readable" … USING (true)` (migration
  `20260210200247_…`, which drops the header-based participant policy
  because "it doesn't work for realtime");
* INSERT: `"Only participants can send messages" … WITH CHECK (EXISTS
  (SELECT 1 FROM room_participants rp WHERE rp.room_id = messages.room_id
  AND rp.session_token = messages.sender_id))`. -/

/-- The final SELECT policy on `messages`: `USING (true)` — every client,
with or without a session token, may read every message row. -/
def messagesSelectPolicy (_s : Store) (_requesterToken : Option String)
    (_m : Message) : Bool :=
  true

/-- The final INSERT policy on `messages`. -/
def messagesInsertPolicy (s : Store) (m : Message) : Bool :=
  s.participants.any (fun p => p.roomId == m.roomId && p.sessionToken == m.senderId)

/-- Realtime delivery on the `room-messages-{roomId}` channel
(`subscribeToMessages` in `src/lib/room.ts`): the subscription filters
`room_id=eq.{roomId}` on INSERT events, gated by the SELECT policy.  The
client subscribes without supplying any session token. -/
def subscriptionDelivers (s : Store) (requesterToken : Option String)
    (roomId : Nat) (m : Message) : Bool :=
  (m.roomId == roomId) && messagesSelectPolicy s requesterToken m

/-! ## Concrete stores for witnesses and counterexamples -/

/-- The empty database. -/
def emptyStore : Store := ⟨[], [], []⟩

/-- A store holding one freshly created waiting room with its creator. -/
def storeWithRoom : Store :=
  ⟨[⟨1, "ABC234", 30, 0, 1800000, .waiting, 1⟩], [⟨1, "t0", 1⟩], []⟩

/-- A store holding one active room with two participants and one message. -/
def activeStore : Store :=
  ⟨[⟨1, "ABC234", 30, 0, 1800000, .active, 2⟩],
   [⟨1, "t0", 1⟩, ⟨1, "t1", 2⟩],
   [⟨1, "t0", some "ciphertext", none, "text"⟩]⟩

/-! ## Claims C5, C6, C7 — the `create` action -/

/-- C5: for every `durationMinutes` outside `[1, 120]`, `create` fails with
the 400-class validation error and the store is unchanged. -/
theorem claim_c5_invalid_duration (d : Int) (code tok : String) (newId : Nat)
    (tEdge tDb : Int) (s : Store) (h : d < 1 ∨ 120 < d) :
    createRoom d code tok newId tEdge tDb s =
      (.error 400 "Invalid duration. Must be between 1 and 120 minutes.", s) := by
  rw [createRoom, if_pos h]

/-- Witness for C5 at `durationMinutes = 0` on the empty store. -/
theorem claim_c5_invalid_duration_witness :
    ((0 : Int) < 1 ∨ (120 : Int) < 0) ∧
      createRoom 0 "ABC234" "tok1" 1 0 0 emptyStore =
        (.error 400 "Invalid duration. Must be between 1 and 120 minutes.", emptyStore) :=
  ⟨Or.inl (by norm_num),
   claim_c5_invalid_duration 0 "ABC234" "tok1" 1 0 0 emptyStore (Or.inl (by norm_num))⟩

/-- C6 counterexample: `expires_at` is computed from the edge runtime's
`Date.now()` while `created_at` is assigned by the database's `now()`
default; with the two clock readings 5 ms apart, the created room violates
`expiresAt = createdAt + durationMinutes * 60 s` exactly. -/
theorem claim_c6_counterexample :
    ∃ room : Room,
      (createRoom 30 "ABC234" "tok1" 1 0 5 emptyStore).1 = .okJoin room "tok1" 1 ∧
      room.status = .waiting ∧ room.participantCount = 1 ∧
      room.expiresAt ≠ room.createdAt + 30 * 60 * 1000 := by
  refine ⟨⟨1, "ABC234", 30, 5, 1800000, .waiting, 1⟩, ?_, rfl, rfl, by decide⟩
  decide

/-- C6 (amended): for every valid `durationMinutes` in `[1, 120]` (and fresh
code, token and row id), `create` returns a room with `status = waiting`,
`participant_count = 1`, `createdAt` equal to the database clock reading and
`expiresAt` equal to the edge clock reading plus `durationMinutes * 60` s;
the claimed equality `expiresAt = createdAt + durationMinutes * 60` s holds
exactly when the two clock readings coincide. -/
theorem claim_c6_amended_create_valid (d : Int) (code tok : String) (newId : Nat)
    (tEdge tDb : Int) (s : Store) (h1 : 1 ≤ d) (h2 : d ≤ 120)
    (hcode : codeExists s code = false) (htok : tokenExists s tok = false)
    (hslot : slotTaken s newId 1 = false) :
    ∃ room : Room,
      (createRoom d code tok newId tEdge tDb s).1 = .okJoin room tok 1 ∧
      room.status = .waiting ∧ room.participantCount = 1 ∧
      room.createdAt = tDb ∧ room.expiresAt = tEdge + d * 60 * 1000 ∧
      (tDb = tEdge → room.expiresAt = room.createdAt + d * 60 * 1000) := by
  refine ⟨⟨newId, code, d, tDb, tEdge + d * 60 * 1000, .waiting, 1⟩, ?_, rfl, rfl,
    rfl, rfl, ?_⟩
  · rw [createRoom, if_neg (by omega)]
    simp only []
    rw [if_neg (by simp [hcode])]
    have htok1 : tokenExists { s with rooms := s.rooms ++
        [⟨newId, code, d, tDb, tEdge + d * 60 * 1000, .waiting, 1⟩] } tok = false := htok
    have hslot1 : slotTaken { s with rooms := s.rooms ++
        [⟨newId, code, d, tDb, tEdge + d * 60 * 1000, .waiting, 1⟩] } newId 1 = false := hslot
    rw [if_neg (by simp [htok1, hslot1])]
  · intro h
    rw [h]

/-- Witness for the amended C6 at `durationMinutes = 30` with coinciding
clocks. -/
theorem claim_c6_amended_witness :
    (1 : Int) ≤ 30 ∧ (30 : Int) ≤ 120 ∧
      ∃ room : Room,
        (createRoom 30 "ABC234" "tok1" 1 7 7 emptyStore).1 = .okJoin room "tok1" 1 ∧
        room.status = .waiting ∧ room.participantCount = 1 ∧
        room.createdAt = 7 ∧ room.expiresAt = 7 + 30 * 60 * 1000 ∧
        (7 = (7:Int) → room.expiresAt = room.createdAt + 30 * 60 * 1000) :=
  ⟨by norm_num, by norm_num,
   claim_c6_amended_create_valid 30 "ABC234" "tok1" 1 7 7 emptyStore (by norm_num)
     (by norm_num) (by decide) (by decide) (by decide)⟩

/-- C7 counterexample: the claim says a room-code collision is retried
internally and never surfaced; in the code a single collision makes the
insert fail and the handler returns the 500 `Failed to create room`
response immediately — there is no retry loop. -/
theorem claim_c7_counterexample :
    (createRoom 30 "ABC234" "tok2" 2 0 0 storeWithRoom).1 =
        .error 500 "Failed to create room" ∧
      (createRoom 30 "ABC234" "tok2" 2 0 0 storeWithRoom).2 = storeWithRoom := by
  constructor
  · decide
  · decide

/-- C7 (amended): when the generated code collides with an existing room,
`create` fails immediately with the 500 `Failed to create room` response,
leaving the store unchanged; the collision is surfaced to the caller (as an
internal error) rather than retried. -/
theorem claim_c7_amended_no_retry (d : Int) (code tok : String) (newId : Nat)
    (tEdge tDb : Int) (s : Store) (h1 : 1 ≤ d) (h2 : d ≤ 120)
    (hcode : codeExists s code = true) :
    createRoom d code tok newId tEdge tDb s = (.error 500 "Failed to create room", s) := by
  rw [createRoom, if_neg (by omega)]
  simp only []
  rw [if_pos (by simp [hcode])]

/-- Witness for the amended C7: a concrete colliding create. -/
theorem claim_c7_amended_witness :
    (1 : Int) ≤ 30 ∧ codeExists storeWithRoom "ABC234" = true ∧
      createRoom 30 "ABC234" "tok2" 2 0 0 storeWithRoom =
        (.error 500 "Failed to create room", storeWithRoom) :=
  ⟨by norm_num, by decide,
   claim_c7_amended_no_retry 30 "ABC234" "tok2" 2 0 0 storeWithRoom (by norm_num)
     (by norm_num) (by decide)⟩

/-! ## Claim C8 — `sendMessage` -/

/-- C8 counterexample: the claim says `sendMessage` with a garbage token
fails `Unauthorized` (the 403 response); in the code the edge function has
no `sendMessage` action at all, so the client's
`invoke('room-operations', {action:'sendMessage', …})` hits the fallback and
gets the 400 `Invalid action` response, which is not the 403 response. -/
theorem claim_c8_counterexample :
    (roomOperations ⟨"sendMessage", 0, "", "garbage-token", 1⟩ "X" "Y" 9 0 0 0
        activeStore).1 = .error 400 "Invalid action" ∧
      (Response.error 400 "Invalid action" ≠
        Response.error 403 "Not authorized to access this room") := by
  constructor
  · decide
  · decide

/-- C8 (amended): every `sendMessage` request through the edge function —
whatever the token and the room state — fails with the 400
`Invalid action` fallback and leaves the store unchanged (no message is
inserted); and the `messages` INSERT row-level-security policy denies a
direct insert whose `sender_id` is not a live participant token of the
target room. -/
theorem claim_c8_amended_sendMessage_always_fails :
    (∀ (req : RawRequest) (genCode genTok : String) (newId : Nat)
        (tEdge tDb now : Int) (s : Store), req.action = "sendMessage" →
      roomOperations req genCode genTok newId tEdge tDb now s =
        (.error 400 "Invalid action", s)) ∧
    (∀ (s : Store) (m : Message),
      (∀ p ∈ s.participants, ¬(p.roomId = m.roomId ∧ p.sessionToken = m.senderId)) →
      messagesInsertPolicy s m = false) := by
  constructor
  · intro req genCode genTok newId tEdge tDb now s h
    rw [roomOperations, h]
    rw [if_neg (by decide), if_neg (by decide), if_neg (by decide), if_neg (by decide)]
  · intro s m h
    rw [messagesInsertPolicy, List.any_eq_false]
    intro p hp
    have := h p hp
    simp only [Bool.and_eq_true, beq_iff_eq]
    tauto

/-- Witness for the amended C8 at a concrete garbage-token request. -/
theorem claim_c8_amended_witness :
    roomOperations ⟨"sendMessage", 0, "", "garbage-token", 1⟩ "X" "Y" 9 0 0 0
        activeStore = (.error 400 "Invalid action", activeStore) ∧
      messagesInsertPolicy activeStore ⟨1, "garbage-token", some "c", none, "text"⟩ =
        false :=
  ⟨claim_c8_amended_sendMessage_always_fails.1 ⟨"sendMessage", 0, "", "garbage-token", 1⟩
      "X" "Y" 9 0 0 0 activeStore rfl,
   claim_c8_amended_sendMessage_always_fails.2 activeStore
      ⟨1, "garbage-token", some "c", none, "text"⟩ (by decide)⟩

/-! ## Claim C9 — the subscription boundary -/

/-- C9 counterexample: the claim says a client without a live binding
receives no message rows on the room's stream; but the final SELECT policy
on `messages` is `USING (true)` and `subscribeToMessages` supplies no token,
so a subscriber with no binding at all receives the room's inserted
message. -/
theorem claim_c9_counterexample :
    subscriptionDelivers activeStore none 1 ⟨1, "t0", some "ciphertext", none, "text"⟩ =
        true ∧
      messagesSelectPolicy activeStore none ⟨1, "t0", some "ciphertext", none, "text"⟩ =
        true := by
  constructor
  · decide
  · decide

/-- C9 (amended): newly inserted message rows are delivered on the
room-scoped channel to every subscriber that names the `roomId`, with no
authorization check: the final `messages` SELECT policy is `USING (true)`
and the realtime subscription filters only on `room_id`.  (Only the
`getMessages` edge-function path checks the session token.) -/
theorem claim_c9_amended_delivery_unauthenticated (s : Store)
    (requesterToken : Option String) (roomId : Nat) (m : Message)
    (h : m.roomId = roomId) :
    subscriptionDelivers s requesterToken roomId m = true := by
  rw [subscriptionDelivers, messagesSelectPolicy, h]
  simp

/-- Witness for the amended C9: a tokenless subscriber receives a concrete
message. -/
theorem claim_c9_amended_witness :
    (Message.roomId ⟨1, "t0", some "ciphertext", none, "text"⟩ = 1) ∧
      subscriptionDelivers activeStore none 1 ⟨1, "t0", some "ciphertext", none, "text"⟩ =
        true :=
  ⟨rfl, claim_c9_amended_delivery_unauthenticated activeStore none 1
    ⟨1, "t0", some "ciphertext", none, "text"⟩ rfl⟩

/-! ## Claims C1, C2 — two `join` calls racing on one waiting room

The `join` handler performs three store interactions: the pre-checks (a
read), the slot-2 participant insert (guarded by the schema constraints,
in particular the unique `(room_id, participant_number)` index), and the
unconditional room update.  Each is atomic at the database; a race between
two `join` calls is an interleaving of these steps.  The machine below runs
two such threads against one store under an arbitrary schedule. -/

/-- Program counter of one in-flight `join` call. -/
inductive JoinPhase where
  | start
  | checked (room : Room)
  | inserted (room : Room)
  | done (res : Response)
deriving DecidableEq

/-- State of the two-thread race: both program counters and the store. -/
structure RaceState where
  pcA : JoinPhase
  pcB : JoinPhase
  store : Store
deriving DecidableEq

/-- One atomic step of a single `join` thread. -/
def threadStep (code tok : String) (now : Int) (pc : JoinPhase) (s : Store) :
    JoinPhase × Store :=
  match pc with
  | .start =>
    match joinPrecheck code now s with
    | .error resp => (.done resp, s)
    | .ok room => (.checked room, s)
  | .checked room =>
    match joinInsertP2 room.id tok s with
    | none => (.done (.error 400 "Failed to join room. It may be full."), s)
    | some s1 => (.inserted room, s1)
  | .inserted room =>
    (.done (.okJoin { room with status := .active, participantCount := 2 } tok 2),
     joinActivate room.id s)
  | .done r => (.done r, s)

/-- One scheduler step: `true` steps thread A, `false` steps thread B. -/
def raceStep (code ta tb : String) (now : Int) (turn : Bool) (st : RaceState) :
    RaceState :=
  if turn then
    let p := threadStep code ta now st.pcA st.store
    { st with pcA := p.1, store := p.2 }
  else
    let p := threadStep code tb now st.pcB st.store
    { st with pcB := p.1, store := p.2 }

/-- Run the race under a schedule. -/
def raceRun (code ta tb : String) (now : Int) : List Bool → RaceState → RaceState
  | [], st => st
  | t :: rest, st => raceRun code ta tb now rest (raceStep code ta tb now t st)

/-- Has a thread returned? -/
def isDone : JoinPhase → Bool
  | .done _ => true
  | _ => false

/-- The room row after the `join` update: `status = 'active'`,
`participant_count = 2`. -/
def actRoom (r0 : Room) : Room := { r0 with status := .active, participantCount := 2 }

/-- Initial store of the race: the one waiting room and its creator. -/
def raceStore0 (r0 : Room) (t0 : String) (msgs : List Message) : Store :=
  ⟨[r0], [⟨r0.id, t0, 1⟩], msgs⟩

/-- Store after one thread's slot-2 insert. -/
def raceStoreIns (r0 : Room) (t0 tx : String) (msgs : List Message) : Store :=
  ⟨[r0], [⟨r0.id, t0, 1⟩, ⟨r0.id, tx, 2⟩], msgs⟩

/-- Store after the winner's room update. -/
def raceStoreAct (r0 : Room) (t0 tx : String) (msgs : List Message) : Store :=
  ⟨[actRoom r0], [⟨r0.id, t0, 1⟩, ⟨r0.id, tx, 2⟩], msgs⟩

/-- The winner's success response. -/
def okResp (r0 : Room) (tx : String) : Response := .okJoin (actRoom r0) tx 2

/-- The room-full error reported when the slot-2 insert loses the race. -/
def fullInsResp : Response := .error 400 "Failed to join room. It may be full."

/-- The room-full error reported when the pre-check already sees the full
room. -/
def fullPreResp : Response := .error 400 "This room is already full"

theorem joinPrecheck_of_waiting (r0 : Room) (code : String) (now : Int) (s : Store)
    (hrooms : s.rooms = [r0]) (hst : r0.status = .waiting)
    (hcode : r0.code = strToUpper code) (hlen : code.length = 6)
    (hexp : ¬ r0.expiresAt < now) :
    joinPrecheck code now s = .ok r0 := by
  rw [joinPrecheck, if_neg (by simp [hlen]), findRoomByCode, hrooms]
  simp only [List.find?_cons, hcode, beq_self_eq_true]
  rw [if_neg hexp, if_neg (by simp [hst]), if_neg (by simp [hst])]

theorem joinPrecheck_of_active (r0 : Room) (code : String) (now : Int) (s : Store)
    (hrooms : s.rooms = [actRoom r0])
    (hcode : r0.code = strToUpper code) (hlen : code.length = 6)
    (hexp : ¬ r0.expiresAt < now) :
    joinPrecheck code now s = .error fullPreResp := by
  rw [joinPrecheck, if_neg (by simp [hlen]), findRoomByCode, hrooms]
  have hc : (actRoom r0).code = strToUpper code := hcode
  simp only [List.find?_cons, hc, beq_self_eq_true]
  have he : ¬ (actRoom r0).expiresAt < now := hexp
  rw [if_neg he, if_neg (by simp [actRoom]), if_pos (by simp [actRoom]), fullPreResp]

theorem joinInsertP2_of_free (roomId : Nat) (tx : String) (s : Store)
    (htok : tokenExists s tx = false) (hslot : slotTaken s roomId 2 = false) :
    joinInsertP2 roomId tx s =
      some { s with participants := s.participants ++ [⟨roomId, tx, 2⟩] } := by
  rw [joinInsertP2, if_neg (by simp [htok, hslot])]

theorem joinInsertP2_of_taken (roomId : Nat) (tx : String) (s : Store)
    (hslot : slotTaken s roomId 2 = true) :
    joinInsertP2 roomId tx s = none := by
  rw [joinInsertP2, if_pos (Or.inr hslot)]

theorem threadStep_start_waiting (r0 : Room) (code tx : String) (now : Int) (s : Store)
    (hrooms : s.rooms = [r0]) (hst : r0.status = .waiting)
    (hcode : r0.code = strToUpper code) (hlen : code.length = 6)
    (hexp : ¬ r0.expiresAt < now) :
    threadStep code tx now .start s = (.checked r0, s) := by
  rw [threadStep, joinPrecheck_of_waiting r0 code now s hrooms hst hcode hlen hexp]

theorem threadStep_start_active (r0 : Room) (code tx : String) (now : Int) (s : Store)
    (hrooms : s.rooms = [actRoom r0])
    (hcode : r0.code = strToUpper code) (hlen : code.length = 6)
    (hexp : ¬ r0.expiresAt < now) :
    threadStep code tx now .start s = (.done fullPreResp, s) := by
  rw [threadStep, joinPrecheck_of_active r0 code now s hrooms hcode hlen hexp]

theorem threadStep_checked_store0 (r0 : Room) (code t0 tx : String) (now : Int)
    (msgs : List Message) (htx0 : tx ≠ t0) :
    threadStep code tx now (.checked r0) (raceStore0 r0 t0 msgs) =
      (.inserted r0, raceStoreIns r0 t0 tx msgs) := by
  rw [threadStep, joinInsertP2_of_free r0.id tx (raceStore0 r0 t0 msgs)
    (by simp [tokenExists, raceStore0, Ne.symm htx0])
    (by simp [slotTaken, raceStore0])]
  rfl

theorem threadStep_checked_ins (r0 : Room) (code t0 ty tx : String) (now : Int)
    (msgs : List Message) :
    threadStep code tx now (.checked r0) (raceStoreIns r0 t0 ty msgs) =
      (.done fullInsResp, raceStoreIns r0 t0 ty msgs) := by
  rw [threadStep, joinInsertP2_of_taken r0.id tx (raceStoreIns r0 t0 ty msgs)
    (by simp [slotTaken, raceStoreIns]), fullInsResp]

theorem threadStep_checked_act (r0 : Room) (code t0 ty tx : String) (now : Int)
    (msgs : List Message) :
    threadStep code tx now (.checked r0) (raceStoreAct r0 t0 ty msgs) =
      (.done fullInsResp, raceStoreAct r0 t0 ty msgs) := by
  rw [threadStep, joinInsertP2_of_taken r0.id tx (raceStoreAct r0 t0 ty msgs)
    (by simp [slotTaken, raceStoreAct]), fullInsResp]

theorem threadStep_inserted (r0 : Room) (code t0 tx : String) (now : Int)
    (msgs : List Message) :
    threadStep code tx now (.inserted r0) (raceStoreIns r0 t0 tx msgs) =
      (.done (okResp r0 tx), raceStoreAct r0 t0 tx msgs) := by
  rw [threadStep, okResp, actRoom]
  simp [joinActivate, raceStoreIns, raceStoreAct, actRoom]

/-- Program counters reachable while the store still holds the untouched
waiting room. -/
def pcPhase0 (r0 : Room) (pc : JoinPhase) : Prop :=
  pc = .start ∨ pc = .checked r0

/-- Program counters reachable for the losing thread once the winner has
inserted its slot-2 binding. -/
def pcPhase1 (r0 : Room) (pc : JoinPhase) : Prop :=
  pc = .start ∨ pc = .checked r0 ∨ pc = .done fullInsResp

/-- Program counters reachable for the losing thread once the winner has
completed. -/
def pcPhase2 (r0 : Room) (pc : JoinPhase) : Prop :=
  pc = .start ∨ pc = .checked r0 ∨ pc = .done fullInsResp ∨ pc = .done fullPreResp

/-- Invariant of the two-`join` race: the reachable configurations. -/
def raceInv (r0 : Room) (t0 ta tb : String) (msgs : List Message)
    (st : RaceState) : Prop :=
  (st.store = raceStore0 r0 t0 msgs ∧ pcPhase0 r0 st.pcA ∧ pcPhase0 r0 st.pcB)
  ∨ (st.store = raceStoreIns r0 t0 ta msgs ∧ st.pcA = .inserted r0 ∧ pcPhase1 r0 st.pcB)
  ∨ (st.store = raceStoreIns r0 t0 tb msgs ∧ st.pcB = .inserted r0 ∧ pcPhase1 r0 st.pcA)
  ∨ (st.store = raceStoreAct r0 t0 ta msgs ∧ st.pcA = .done (okResp r0 ta) ∧
      pcPhase2 r0 st.pcB)
  ∨ (st.store = raceStoreAct r0 t0 tb msgs ∧ st.pcB = .done (okResp r0 tb) ∧
      pcPhase2 r0 st.pcA)

theorem pcPhase0_weaken {r0 : Room} {pc : JoinPhase} (h : pcPhase0 r0 pc) :
    pcPhase1 r0 pc := by
  rcases h with h | h
  · exact Or.inl h
  · exact Or.inr (Or.inl h)

theorem pcPhase1_weaken {r0 : Room} {pc : JoinPhase} (h : pcPhase1 r0 pc) :
    pcPhase2 r0 pc := by
  rcases h with h | h | h
  · exact Or.inl h
  · exact Or.inr (Or.inl h)
  · exact Or.inr (Or.inr (Or.inl h))

theorem raceStep_true (code ta tb : String) (now : Int) (pa pb : JoinPhase)
    (s : Store) :
    raceStep code ta tb now true ⟨pa, pb, s⟩ =
      ⟨(threadStep code ta now pa s).1, pb, (threadStep code ta now pa s).2⟩ := rfl

theorem raceStep_false (code ta tb : String) (now : Int) (pa pb : JoinPhase)
    (s : Store) :
    raceStep code ta tb now false ⟨pa, pb, s⟩ =
      ⟨pa, (threadStep code tb now pb s).1, (threadStep code tb now pb s).2⟩ := rfl

theorem threadStep_done (code tx : String) (now : Int) (r : Response) (s : Store) :
    threadStep code tx now (.done r) s = (.done r, s) := rfl

theorem raceInv_step (r0 : Room) (code t0 ta tb : String) (now : Int)
    (msgs : List Message)
    (hst : r0.status = .waiting)
    (hcode : r0.code = strToUpper code) (hlen : code.length = 6)
    (hexp : ¬ r0.expiresAt < now)
    (hA0 : ta ≠ t0) (hB0 : tb ≠ t0) (hAB : ta ≠ tb)
    (turn : Bool) (st : RaceState)
    (h : raceInv r0 t0 ta tb msgs st) :
    raceInv r0 t0 ta tb msgs (raceStep code ta tb now turn st) := by
  obtain ⟨pcA, pcB, store⟩ := st
  rcases h with ⟨hs, hA, hB⟩ | ⟨hs, hA, hB⟩ | ⟨hs, hA, hB⟩ | ⟨hs, hA, hB⟩ | ⟨hs, hA, hB⟩ <;>
    simp only at hs hA hB <;> subst hs
  · -- phase 0
    cases turn
    · rcases hB with rfl | rfl
      · rw [raceStep_false, threadStep_start_waiting r0 code tb now _ rfl hst hcode hlen hexp]
        exact Or.inl ⟨rfl, hA, Or.inr rfl⟩
      · rw [raceStep_false, threadStep_checked_store0 r0 code t0 tb now msgs hB0]
        exact Or.inr (Or.inr (Or.inl ⟨rfl, rfl, pcPhase0_weaken hA⟩))
    · rcases hA with rfl | rfl
      · rw [raceStep_true, threadStep_start_waiting r0 code ta now _ rfl hst hcode hlen hexp]
        exact Or.inl ⟨rfl, Or.inr rfl, hB⟩
      · rw [raceStep_true, threadStep_checked_store0 r0 code t0 ta now msgs hA0]
        exact Or.inr (Or.inl ⟨rfl, rfl, pcPhase0_weaken hB⟩)
  · -- phase 1, A inserted
    subst hA
    cases turn
    · rcases hB with rfl | rfl | rfl
      · rw [raceStep_false, threadStep_start_waiting r0 code tb now _ rfl hst hcode hlen hexp]
        exact Or.inr (Or.inl ⟨rfl, rfl, Or.inr (Or.inl rfl)⟩)
      · rw [raceStep_false, threadStep_checked_ins r0 code t0 ta tb now msgs]
        exact Or.inr (Or.inl ⟨rfl, rfl, Or.inr (Or.inr rfl)⟩)
      · rw [raceStep_false, threadStep_done]
        exact Or.inr (Or.inl ⟨rfl, rfl, Or.inr (Or.inr rfl)⟩)
    · rw [raceStep_true, threadStep_inserted r0 code t0 ta now msgs]
      exact Or.inr (Or.inr (Or.inr (Or.inl ⟨rfl, rfl, pcPhase1_weaken hB⟩)))
  · -- phase 1, B inserted
    subst hA
    cases turn
    · rw [raceStep_false, threadStep_inserted r0 code t0 tb now msgs]
      exact Or.inr (Or.inr (Or.inr (Or.inr ⟨rfl, rfl, pcPhase1_weaken hB⟩)))
    · rcases hB with rfl | rfl | rfl
      · rw [raceStep_true, threadStep_start_waiting r0 code ta now _ rfl hst hcode hlen hexp]
        exact Or.inr (Or.inr (Or.inl ⟨rfl, rfl, Or.inr (Or.inl rfl)⟩))
      · rw [raceStep_true, threadStep_checked_ins r0 code t0 tb ta now msgs]
        exact Or.inr (Or.inr (Or.inl ⟨rfl, rfl, Or.inr (Or.inr rfl)⟩))
      · rw [raceStep_true, threadStep_done]
        exact Or.inr (Or.inr (Or.inl ⟨rfl, rfl, Or.inr (Or.inr rfl)⟩))
  · -- phase 2, A done
    subst hA
    cases turn
    · rcases hB with rfl | rfl | rfl | rfl
      · rw [raceStep_false, threadStep_start_active r0 code tb now _ rfl hcode hlen hexp]
        exact Or.inr (Or.inr (Or.inr (Or.inl
          ⟨rfl, rfl, Or.inr (Or.inr (Or.inr rfl))⟩)))
      · rw [raceStep_false, threadStep_checked_act r0 code t0 ta tb now msgs]
        exact Or.inr (Or.inr (Or.inr (Or.inl
          ⟨rfl, rfl, Or.inr (Or.inr (Or.inl rfl))⟩)))
      · rw [raceStep_false, threadStep_done]
        exact Or.inr (Or.inr (Or.inr (Or.inl
          ⟨rfl, rfl, Or.inr (Or.inr (Or.inl rfl))⟩)))
      · rw [raceStep_false, threadStep_done]
        exact Or.inr (Or.inr (Or.inr (Or.inl
          ⟨rfl, rfl, Or.inr (Or.inr (Or.inr rfl))⟩)))
    · rw [raceStep_true, threadStep_done]
      exact Or.inr (Or.inr (Or.inr (Or.inl ⟨rfl, rfl, hB⟩)))
  · -- phase 2, B done
    subst hA
    cases turn
    · rw [raceStep_false, threadStep_done]
      exact Or.inr (Or.inr (Or.inr (Or.inr ⟨rfl, rfl, hB⟩)))
    · rcases hB with rfl | rfl | rfl | rfl
      · rw [raceStep_true, threadStep_start_active r0 code ta now _ rfl hcode hlen hexp]
        exact Or.inr (Or.inr (Or.inr (Or.inr
          ⟨rfl, rfl, Or.inr (Or.inr (Or.inr rfl))⟩)))
      · rw [raceStep_true, threadStep_checked_act r0 code t0 tb ta now msgs]
        exact Or.inr (Or.inr (Or.inr (Or.inr
          ⟨rfl, rfl, Or.inr (Or.inr (Or.inl rfl))⟩)))
      · rw [raceStep_true, threadStep_done]
        exact Or.inr (Or.inr (Or.inr (Or.inr
          ⟨rfl, rfl, Or.inr (Or.inr (Or.inl rfl))⟩)))
      · rw [raceStep_true, threadStep_done]
        exact Or.inr (Or.inr (Or.inr (Or.inr
          ⟨rfl, rfl, Or.inr (Or.inr (Or.inr rfl))⟩)))

theorem raceInv_run (r0 : Room) (code t0 ta tb : String) (now : Int)
    (msgs : List Message)
    (hst : r0.status = .waiting)
    (hcode : r0.code = strToUpper code) (hlen : code.length = 6)
    (hexp : ¬ r0.expiresAt < now)
    (hA0 : ta ≠ t0) (hB0 : tb ≠ t0) (hAB : ta ≠ tb)
    (sched : List Bool) (st : RaceState)
    (h : raceInv r0 t0 ta tb msgs st) :
    raceInv r0 t0 ta tb msgs (raceRun code ta tb now sched st) := by
  induction sched generalizing st with
  | nil => exact h
  | cons turn rest ih =>
    exact ih _ (raceInv_step r0 code t0 ta tb now msgs hst hcode hlen hexp
      hA0 hB0 hAB turn st h)

/-- C1 counterexample: the claim names the `transitionToActive`
compare-and-swap — an update that succeeds only when the room is `waiting`
with `participantCount` 1 — as the authoritative gate.  The code's room
update (`update({status:'active', participant_count:2}).eq('id', room.id)`)
is unconditional: applied to a room that is already active with two
participants (where the claimed CAS must fail and change nothing), it
still rewrites the row.  The race is in fact decided by the unique
`(room_id, participant_number)` index at the insert. -/
theorem claim_c1_counterexample :
    joinActivate 1 (raceStoreAct ⟨1, "ABC234", 30, 0, 1800000, .waiting, 1⟩ "t0" "ta" [])
        = raceStoreAct ⟨1, "ABC234", 30, 0, 1800000, .waiting, 1⟩ "t0" "ta" [] ∧
      joinActivate 1 ⟨[⟨1, "ABC234", 30, 0, 1800000, .expired, 1⟩], [], []⟩ ≠
        ⟨[⟨1, "ABC234", 30, 0, 1800000, .expired, 1⟩], [], []⟩ := by
  constructor
  · decide
  · decide

/-- C1 (amended): for a `waiting` room with one participant, under every
schedule of two racing `join` calls in which both calls return, exactly one
returns success with the room `active` and a slot-2 binding, the other
fails with a room-full 400 error; the final `participant_count` is exactly
2 (never 3) and exactly one slot-2 binding exists.  The authoritative gate
is the unique `(room_id, participant_number)` index rejecting the second
slot-2 insert — the room update is unconditional, not a compare-and-swap. -/
theorem claim_c1_amended_join_race (r0 : Room) (code t0 ta tb : String) (now : Int)
    (msgs : List Message) (sched : List Bool) (final : RaceState)
    (hst : r0.status = .waiting) (hcnt : r0.participantCount = 1)
    (hcode : r0.code = strToUpper code) (hlen : code.length = 6)
    (hexp : ¬ r0.expiresAt < now)
    (hA0 : ta ≠ t0) (hB0 : tb ≠ t0) (hAB : ta ≠ tb)
    (hfin : raceRun code ta tb now sched ⟨.start, .start, raceStore0 r0 t0 msgs⟩ = final)
    (hdA : isDone final.pcA = true) (hdB : isDone final.pcB = true) :
    final.store.rooms = [{ r0 with status := .active, participantCount := 2 }] ∧
    (final.store.participants = [⟨r0.id, t0, 1⟩, ⟨r0.id, ta, 2⟩] ∨
      final.store.participants = [⟨r0.id, t0, 1⟩, ⟨r0.id, tb, 2⟩]) ∧
    ((final.pcA = .done (okResp r0 ta) ∧
        (final.pcB = .done fullInsResp ∨ final.pcB = .done fullPreResp)) ∨
      (final.pcB = .done (okResp r0 tb) ∧
        (final.pcA = .done fullInsResp ∨ final.pcA = .done fullPreResp))) ∧
    ¬(final.pcA = .done (okResp r0 ta) ∧ final.pcB = .done (okResp r0 tb)) := by
  have hinv := raceInv_run r0 code t0 ta tb now msgs hst hcode hlen hexp hA0 hB0 hAB
    sched ⟨.start, .start, raceStore0 r0 t0 msgs⟩
    (Or.inl ⟨rfl, Or.inl rfl, Or.inl rfl⟩)
  rw [hfin] at hinv
  rcases hinv with ⟨hs, hA, hB⟩ | ⟨hs, hA, hB⟩ | ⟨hs, hA, hB⟩ | ⟨hs, hA, hB⟩ |
    ⟨hs, hA, hB⟩
  · rcases hA with hA | hA <;> rw [hA] at hdA <;> simp [isDone] at hdA
  · rw [hA] at hdA
    simp [isDone] at hdA
  · rw [hA] at hdB
    simp [isDone] at hdB
  · rcases hB with hB | hB | hB | hB
    · rw [hB] at hdB
      simp [isDone] at hdB
    · rw [hB] at hdB
      simp [isDone] at hdB
    · refine ⟨by rw [hs]; rfl, Or.inl (by rw [hs]; rfl), Or.inl ⟨hA, Or.inl hB⟩, ?_⟩
      intro ⟨h1, h2⟩
      rw [hB] at h2
      simp [fullInsResp, okResp] at h2
    · refine ⟨by rw [hs]; rfl, Or.inl (by rw [hs]; rfl), Or.inl ⟨hA, Or.inr hB⟩, ?_⟩
      intro ⟨h1, h2⟩
      rw [hB] at h2
      simp [fullPreResp, okResp] at h2
  · rcases hB with hB | hB | hB | hB
    · rw [hB] at hdA
      simp [isDone] at hdA
    · rw [hB] at hdA
      simp [isDone] at hdA
    · refine ⟨by rw [hs]; rfl, Or.inr (by rw [hs]; rfl), Or.inr ⟨hA, Or.inl hB⟩, ?_⟩
      intro ⟨h1, h2⟩
      rw [hB] at h1
      simp [fullInsResp, okResp] at h1
    · refine ⟨by rw [hs]; rfl, Or.inr (by rw [hs]; rfl), Or.inr ⟨hA, Or.inr hB⟩, ?_⟩
      intro ⟨h1, h2⟩
      rw [hB] at h1
      simp [fullPreResp, okResp] at h1

/-- The fixed room used for concrete race runs. -/
def raceRoom : Room := ⟨1, "ABC234", 30, 0, 1800000, .waiting, 1⟩

/-- A schedule in which thread A runs to completion first and B then
observes the full room at its pre-check. -/
def schedAFirst : List Bool := [true, true, true, false, false, false]

/-- Witness for the amended C1: a concrete complete race run. -/
theorem claim_c1_amended_witness :
    (isDone (raceRun "ABC234" "ta" "tb" 0 schedAFirst
        ⟨.start, .start, raceStore0 raceRoom "t0" []⟩).pcA = true) ∧
    (isDone (raceRun "ABC234" "ta" "tb" 0 schedAFirst
        ⟨.start, .start, raceStore0 raceRoom "t0" []⟩).pcB = true) ∧
    ((raceRun "ABC234" "ta" "tb" 0 schedAFirst
        ⟨.start, .start, raceStore0 raceRoom "t0" []⟩).store.rooms =
      [{ raceRoom with status := .active, participantCount := 2 }] ∧
     ((raceRun "ABC234" "ta" "tb" 0 schedAFirst
        ⟨.start, .start, raceStore0 raceRoom "t0" []⟩).store.participants =
        [⟨raceRoom.id, "t0", 1⟩, ⟨raceRoom.id, "ta", 2⟩] ∨
      (raceRun "ABC234" "ta" "tb" 0 schedAFirst
        ⟨.start, .start, raceStore0 raceRoom "t0" []⟩).store.participants =
        [⟨raceRoom.id, "t0", 1⟩, ⟨raceRoom.id, "tb", 2⟩]) ∧
     (((raceRun "ABC234" "ta" "tb" 0 schedAFirst
        ⟨.start, .start, raceStore0 raceRoom "t0" []⟩).pcA =
          .done (okResp raceRoom "ta") ∧
        ((raceRun "ABC234" "ta" "tb" 0 schedAFirst
          ⟨.start, .start, raceStore0 raceRoom "t0" []⟩).pcB = .done fullInsResp ∨
         (raceRun "ABC234" "ta" "tb" 0 schedAFirst
          ⟨.start, .start, raceStore0 raceRoom "t0" []⟩).pcB = .done fullPreResp)) ∨
      ((raceRun "ABC234" "ta" "tb" 0 schedAFirst
          ⟨.start, .start, raceStore0 raceRoom "t0" []⟩).pcB =
          .done (okResp raceRoom "tb") ∧
        ((raceRun "ABC234" "ta" "tb" 0 schedAFirst
          ⟨.start, .start, raceStore0 raceRoom "t0" []⟩).pcA = .done fullInsResp ∨
         (raceRun "ABC234" "ta" "tb" 0 schedAFirst
          ⟨.start, .start, raceStore0 raceRoom "t0" []⟩).pcA = .done fullPreResp))) ∧
     ¬((raceRun "ABC234" "ta" "tb" 0 schedAFirst
          ⟨.start, .start, raceStore0 raceRoom "t0" []⟩).pcA =
            .done (okResp raceRoom "ta") ∧
       (raceRun "ABC234" "ta" "tb" 0 schedAFirst
          ⟨.start, .start, raceStore0 raceRoom "t0" []⟩).pcB =
            .done (okResp raceRoom "tb"))) :=
  ⟨by decide, by decide,
   claim_c1_amended_join_race raceRoom "ABC234" "t0" "ta" "tb" 0 [] schedAFirst
     (raceRun "ABC234" "ta" "tb" 0 schedAFirst ⟨.start, .start, raceStore0 raceRoom "t0" []⟩)
     (by decide) (by decide) (by decide) (by decide) (by decide)
     (by decide) (by decide) (by decide) rfl (by decide) (by decide)⟩

/-- C2: in every complete two-`join` race, a call that does not succeed
reports a room-full 400 error (either the pre-check's
`This room is already full` or the insert conflict's
`Failed to join room. It may be full.`), and no live binding with that
call's session token exists in the final store: the failed insert left no
row behind. -/
theorem claim_c2_failed_join_clean (r0 : Room) (code t0 ta tb : String) (now : Int)
    (msgs : List Message) (sched : List Bool) (final : RaceState)
    (hst : r0.status = .waiting) (hcnt : r0.participantCount = 1)
    (hcode : r0.code = strToUpper code) (hlen : code.length = 6)
    (hexp : ¬ r0.expiresAt < now)
    (hA0 : ta ≠ t0) (hB0 : tb ≠ t0) (hAB : ta ≠ tb)
    (hfin : raceRun code ta tb now sched ⟨.start, .start, raceStore0 r0 t0 msgs⟩ = final)
    (hdA : isDone final.pcA = true) (hdB : isDone final.pcB = true) :
    (final.pcA ≠ .done (okResp r0 ta) →
      (final.pcA = .done fullInsResp ∨ final.pcA = .done fullPreResp) ∧
        ∀ p ∈ final.store.participants, p.sessionToken ≠ ta) ∧
    (final.pcB ≠ .done (okResp r0 tb) →
      (final.pcB = .done fullInsResp ∨ final.pcB = .done fullPreResp) ∧
        ∀ p ∈ final.store.participants, p.sessionToken ≠ tb) := by
  have hinv := raceInv_run r0 code t0 ta tb now msgs hst hcode hlen hexp hA0 hB0 hAB
    sched ⟨.start, .start, raceStore0 r0 t0 msgs⟩
    (Or.inl ⟨rfl, Or.inl rfl, Or.inl rfl⟩)
  rw [hfin] at hinv
  rcases hinv with ⟨hs, hA, hB⟩ | ⟨hs, hA, hB⟩ | ⟨hs, hA, hB⟩ | ⟨hs, hA, hB⟩ |
    ⟨hs, hA, hB⟩
  · rcases hA with hA | hA <;> rw [hA] at hdA <;> simp [isDone] at hdA
  · rw [hA] at hdA
    simp [isDone] at hdA
  · rw [hA] at hdB
    simp [isDone] at hdB
  · rcases hB with hB | hB | hB | hB
    · rw [hB] at hdB
      simp [isDone] at hdB
    · rw [hB] at hdB
      simp [isDone] at hdB
    · constructor
      · intro hna
        exact absurd hA hna
      · intro _
        refine ⟨Or.inl hB, ?_⟩
        rw [hs]
        intro p hp
        simp only [raceStoreIns, raceStoreAct, List.mem_cons, List.mem_singleton,
          List.not_mem_nil, or_false] at hp
        rcases hp with rfl | rfl
        · exact Ne.symm hB0
        · exact hAB
    · constructor
      · intro hna
        exact absurd hA hna
      · intro _
        refine ⟨Or.inr hB, ?_⟩
        rw [hs]
        intro p hp
        simp only [raceStoreIns, raceStoreAct, List.mem_cons, List.mem_singleton,
          List.not_mem_nil, or_false] at hp
        rcases hp with rfl | rfl
        · exact Ne.symm hB0
        · exact hAB
  · rcases hB with hB | hB | hB | hB
    · rw [hB] at hdA
      simp [isDone] at hdA
    · rw [hB] at hdA
      simp [isDone] at hdA
    · constructor
      · intro _
        refine ⟨Or.inl hB, ?_⟩
        rw [hs]
        intro p hp
        simp only [raceStoreIns, raceStoreAct, List.mem_cons, List.mem_singleton,
          List.not_mem_nil, or_false] at hp
        rcases hp with rfl | rfl
        · exact Ne.symm hA0
        · exact Ne.symm hAB
      · intro hnb
        exact absurd hA hnb
    · constructor
      · intro _
        refine ⟨Or.inr hB, ?_⟩
        rw [hs]
        intro p hp
        simp only [raceStoreIns, raceStoreAct, List.mem_cons, List.mem_singleton,
          List.not_mem_nil, or_false] at hp
        rcases hp with rfl | rfl
        · exact Ne.symm hA0
        · exact Ne.symm hAB
      · intro hnb
        exact absurd hA hnb

/-- Witness for C2: in the concrete race run, the loser reported room-full
and holds no binding. -/
theorem claim_c2_failed_join_clean_witness :
    ((raceRun "ABC234" "ta" "tb" 0 schedAFirst
        ⟨.start, .start, raceStore0 raceRoom "t0" []⟩).pcB ≠
          .done (okResp raceRoom "tb")) ∧
    (((raceRun "ABC234" "ta" "tb" 0 schedAFirst
        ⟨.start, .start, raceStore0 raceRoom "t0" []⟩).pcB = .done fullInsResp ∨
      (raceRun "ABC234" "ta" "tb" 0 schedAFirst
        ⟨.start, .start, raceStore0 raceRoom "t0" []⟩).pcB = .done fullPreResp) ∧
      ∀ p ∈ (raceRun "ABC234" "ta" "tb" 0 schedAFirst
        ⟨.start, .start, raceStore0 raceRoom "t0" []⟩).store.participants,
        p.sessionToken ≠ "tb") :=
  ⟨by decide,
   (claim_c2_failed_join_clean raceRoom "ABC234" "t0" "ta" "tb" 0 [] schedAFirst
     (raceRun "ABC234" "ta" "tb" 0 schedAFirst ⟨.start, .start, raceStore0 raceRoom "t0" []⟩)
     (by decide) (by decide) (by decide) (by decide) (by decide)
     (by decide) (by decide) (by decide) rfl (by decide) (by decide)).2 (by decide)⟩

end GhostChat
